import Mathlib

/-!
Verification development for the GECToR-style iterative grammatical error
correction predictor (`src/predictor.py`).  The definitions below are a
shallow embedding of `Predictor.get_label_action`, `Predictor.postprocess`,
`Predictor.update_final_batch` and `Predictor.handle_batch`.

Modelling conventions:
* Python floats (label probabilities, `min_error_probability`) are modelled
  as rationals; only order comparisons on them occur in the embedded code.
* Fallible Python code (exceptions) is modelled with `Except String`.
* The external tagging model, tokenizer and collation (out of scope per the
  design: `preprocess` body, `predict`) are abstracted as an oracle function
  from the active sub-batch to the per-sentence proposals, with the one
  behaviour of `preprocess` that is visible at this level kept explicit:
  `preprocess` returns a bare `[]` (instead of a pair) when the active batch
  contains no nonempty sentence, which makes the tuple unpacking in
  `handle_batch` raise `ValueError`.
-/

/-- A sentence: an ordered sequence of word strings. -/
abbrev Sent := List String

/-- Modelled from the spec: the sentinel / marker string constants imported
by `predictor.py` from `utils/helpers.py`, which is not under `src/`.
The spec names the correction-vocabulary sentinels `KEEP`, `PAD`, `UNKNOWN`
and a fixed start-of-sequence marker word; the values used are the standard
GECToR label strings. -/
def KEEP_LABEL : String := "$KEEP"

/-- Modelled from the spec: see `KEEP_LABEL`. -/
def PAD_LABEL : String := "@@PADDING@@"

/-- Modelled from the spec: see `KEEP_LABEL`. -/
def UNK_LABEL : String := "@@UNKNOWN@@"

/-- Modelled from the spec: the synthetic start-of-sequence marker word
prepended before alignment (`$START` in GECToR). -/
def START_TOKEN : String := "$START"

/-- Character-list version of Python's `str.startswith`: `listLeading p s`
is true when `p` occurs at the beginning of `s`. -/
def listLeading : List Char → List Char → Bool
  | [], _ => true
  | _ :: _, [] => false
  | a :: as, b :: bs => a == b && listLeading as bs

/-- `strHasPref p s` models Python's `s.startswith(p)`. -/
def strHasPref (p s : String) : Bool :=
  listLeading p.data s.data

/-- Models Python's `label[label.index("_") + 1:]` on the character list:
everything after the first underscore, or `none` when there is no
underscore (in which case `str.index` raises `ValueError`). -/
def afterFirstUnderscoreList : List Char → Option (List Char)
  | [] => none
  | c :: rest => if c = '_' then some rest else afterFirstUnderscoreList rest

/-- An edit operation `(start, end, replacement, confidence)`.  Positions are
integers because Python's `start_pos - 1` may produce `-1`. -/
abbrev Edit := Int × Int × String × ℚ

/-- The span `if/elif/else` chain of `Predictor.get_label_action`
(predictor.py lines 308-315): `$REPLACE_*`, `$TRANSFORM_*` and `$DELETE`
cover the token at `idx`; `$APPEND_*` and `$MERGE_*` give a zero-width span
after `idx`; any other label leaves `start_pos`/`end_pos` unassigned
(modelled as `none`; the Python `else` branch only prints). -/
def spanFor (idx : Nat) (label : String) : Option (Int × Int) :=
  if strHasPref "$REPLACE_" label = true ∨ strHasPref "$TRANSFORM_" label = true ∨
      label = "$DELETE" then
    some ((idx : Int), (idx : Int) + 1)
  else if strHasPref "$APPEND_" label = true ∨ strHasPref "$MERGE_" label = true then
    some ((idx : Int) + 1, (idx : Int) + 1)
  else
    none

/-- The replacement-text computation of `Predictor.get_label_action`
(predictor.py lines 317-322): empty string for `$DELETE`, the unmodified
label for `$TRANSFORM_*` / `$MERGE_*`, otherwise the payload after the first
underscore (`label[label.index("_") + 1:]`, raising `ValueError` when the
label has no underscore). -/
def replacementFor (label : String) : Except String String :=
  if label = "$DELETE" then Except.ok ""
  else if strHasPref "$TRANSFORM_" label = true ∨ strHasPref "$MERGE_" label = true then
    Except.ok label
  else
    match afterFirstUnderscoreList label.data with
    | some cs => Except.ok (String.mk cs)
    | none => Except.error "ValueError: substring not found"

/-- Embedding of `Predictor.get_label_action` (predictor.py lines 296-326).
`Except.ok none` models a discarded candidate (`return None`);
`Except.error` models an uncaught Python exception.  Note the Python code
evaluates the span chain first (its unknown-label `else` branch only prints,
leaving `start_pos` unassigned), then the replacement (which may raise
`ValueError`), then builds the action tuple (which raises
`UnboundLocalError` when `start_pos` was never assigned). -/
def get_label_action (minErrProb : ℚ) (token : String) (idx : Nat) (label_prob : ℚ)
    (label : String) : Except String (Option Edit) :=
  if label_prob < minErrProb then Except.ok none
  else if label = UNK_LABEL ∨ label = PAD_LABEL ∨ label = KEEP_LABEL then Except.ok none
  else
    match replacementFor label, spanFor idx label with
    | Except.error msg, _ => Except.error msg
    | Except.ok processed, some se =>
        Except.ok (some (se.1 - 1, se.2 - 1, processed, label_prob))
    | Except.ok _, none =>
        Except.error "UnboundLocalError: local variable start_pos referenced before assignment"

/-- Python's `max` on a list of ints: raises `ValueError` on an empty list,
otherwise folds binary max over the elements. -/
def pyMax : List Nat → Except String Nat
  | [] => Except.error "ValueError: max() arg is an empty sequence"
  | x :: xs => Except.ok (xs.foldl Nat.max x)

/-- Models the `re.search("\\s+", token)` guard in `Predictor.postprocess`:
true when the token contains a whitespace character. -/
def containsWhitespace (t : String) : Bool :=
  t.data.any (fun c => c.isWhitespace)

/-- Python's `range(start, stop, step)` for a positive step. -/
def rangeStep (start stop step : Nat) : List Nat :=
  (List.range ((stop - start + step - 1) / step)).map (fun k => start + k * step)

/-- The forced test edits added by `Predictor.postprocess` when the
`debug_force_edit` flag is set (predictor.py lines 217-223): one replacement
edit for every third token among the first ten. -/
def forcedEdits (tokens : List String) : List Edit :=
  (rangeStep 2 (Nat.min tokens.length 10) 3).map
    (fun i => ((i : Int), (i : Int) + 1, "FORCED_EDIT_" ++ toString i, 1))

/-- Modelled from the spec: the whitespace-split token count of a
replacement string used by the Edit Applier (spec section 4.3); the empty
string contributes zero tokens. -/
def replacementTokens (r : String) : List String :=
  if r = "" then [] else r.splitOn " "

/-- Modelled from the spec: `get_target_sent_by_edits` from
`utils/helpers.py`, which is not under `src/`.  The spec's Edit Applier
(section 4.3): edits are applied left to right with a running length-delta
accumulator; before applying an edit its effective range is
`(start + delta, end + delta)`, afterwards
`delta += replacement_word_count - (end - start)`.  Deletion removes the
range, insertion (`start == end`) splices without removing, replacement
does both. -/
def applyEdits (words : List String) (edits : List Edit) : List String :=
  (edits.foldl
    (fun (acc : List String × Int) ed =>
      let s := ed.1 + acc.2
      let e := ed.2.1 + acc.2
      let repl := replacementTokens ed.2.2.1
      (acc.1.take s.toNat ++ repl ++ acc.1.drop e.toNat,
       acc.2 + repl.length - (ed.2.1 - ed.1)))
    (words, 0)).1

/-- One step of the per-token edit-building loop of `Predictor.postprocess`
(predictor.py lines 237-260): position 0 holds the synthetic start marker,
position `idx >= 1` holds `tokens[idx-1]`; `$KEEP`-labelled and
whitespace-containing tokens are skipped, otherwise the decoder is invoked
and a returned action is appended.  Out-of-range list accesses model
Python's `IndexError`. -/
def scanStep (minErr : ℚ) (keepId : Nat) (id2tag : Nat → String) (tokens : List String)
    (labelProbs : List ℚ) (labelIds : List Nat) (edits : List Edit) (idx : Nat) :
    Except String (List Edit) :=
  match (if idx = 0 then some START_TOKEN else tokens.get? (idx - 1)) with
  | none => Except.error "IndexError: list index out of range"
  | some token =>
    match labelIds.get? idx with
    | none => Except.error "IndexError: list index out of range"
    | some lid =>
      if lid = keepId then Except.ok edits
      else if containsWhitespace token = true then Except.ok edits
      else
        match labelProbs.get? idx with
        | none => Except.error "IndexError: list index out of range"
        | some prob =>
          match get_label_action minErr token idx prob (id2tag lid) with
          | Except.error msg => Except.error msg
          | Except.ok none => Except.ok edits
          | Except.ok (some a) => Except.ok (edits ++ [a])

/-- The edit-building loop of `Predictor.postprocess`: fold `scanStep` over
token positions `0, ..., truncLen - 1`, starting from the (possibly forced)
initial edit list. -/
def scanEdits (minErr : ℚ) (keepId : Nat) (id2tag : Nat → String) (tokens : List String)
    (truncLen : Nat) (labelProbs : List ℚ) (labelIds : List Nat) (init : List Edit) :
    Except String (List Edit) :=
  (List.range truncLen).foldlM (scanStep minErr keepId id2tag tokens labelProbs labelIds) init

/-- Embedding of the per-sentence body of `Predictor.postprocess`
(predictor.py lines 196-271).  `keepId` is the correction vocabulary's id of
`$KEEP`; `id2tag` is the (external, read-only) id-to-tag mapping; the two
pre-decode guards are `max(label_ids) == keep_id and not debug_force_edit`
and `incor_prob < min_error_probability`; when neither fires the edit loop
runs and a nonempty edit list is applied with `get_target_sent_by_edits`. -/
def postprocessSent (minErr : ℚ) (keepId : Nat) (id2tag : Nat → String) (debugForce : Bool)
    (tokens : List String) (truncLen : Nat) (labelProbs : List ℚ) (labelIds : List Nat)
    (incorProb : ℚ) : Except String (List String) :=
  match pyMax labelIds with
  | Except.error msg => Except.error msg
  | Except.ok mx =>
    let edits0 : List Edit :=
      if debugForce = true ∧ 3 < tokens.length then forcedEdits tokens else []
    if mx = keepId ∧ debugForce = false then Except.ok tokens
    else if incorProb < minErr then Except.ok tokens
    else
      match scanEdits minErr keepId id2tag tokens truncLen labelProbs labelIds edits0 with
      | Except.error msg => Except.error msg
      | Except.ok edits => Except.ok (if edits = [] then tokens else applyEdits tokens edits)

/-- The loop state of `Predictor.update_final_batch`: the (copied) final
batch, the freshly built active id list, the running update count, and the
per-sentence prediction history `prev_preds_dict`. -/
structure UFBState where
  finalBatch : List Sent
  newPredIds : List Nat
  totalUpdated : Nat
  prev : Nat → List Sent

/-- One iteration of the loop body of `Predictor.update_final_batch`
(predictor.py lines 279-293) on the pair `(ori_id, pred_tokens)`:
if the proposal differs from the current sequence it replaces it and the
update count is incremented; it is appended to the history and the id kept
active exactly when it was not seen before; an unchanged proposal leaves
the state untouched (`continue`). -/
def ufbStep (s : UFBState) (p : Nat × Sent) : UFBState :=
  if s.finalBatch.getD p.1 [] ≠ p.2 then
    if p.2 ∉ s.prev p.1 then
      { finalBatch := s.finalBatch.set p.1 p.2,
        newPredIds := s.newPredIds ++ [p.1],
        totalUpdated := s.totalUpdated + 1,
        prev := fun j => if j = p.1 then s.prev j ++ [p.2] else s.prev j }
    else
      { finalBatch := s.finalBatch.set p.1 p.2,
        newPredIds := s.newPredIds,
        totalUpdated := s.totalUpdated + 1,
        prev := s.prev }
  else s

/-- Embedding of `Predictor.update_final_batch` (predictor.py lines
273-294): fold `ufbStep` over `zip(pred_ids, pred_batch)` (in Python,
`enumerate(pred_ids)` indexing into `pred_batch`, which has the same length
where this is called).  The mutated `prev_preds_dict` is returned as the
fourth component. -/
def update_final_batch (final_batch : List Sent) (pred_ids : List Nat)
    (pred_batch : List Sent) (prev : Nat → List Sent) :
    List Sent × List Nat × Nat × (Nat → List Sent) :=
  let s := (pred_ids.zip pred_batch).foldl ufbStep
    { finalBatch := final_batch, newPredIds := [], totalUpdated := 0, prev := prev }
  (s.finalBatch, s.newPredIds, s.totalUpdated, s.prev)

/-- The iteration loop of `Predictor.handle_batch` (predictor.py lines
143-160), recursing on the remaining iteration budget.  The external
tokenizer / collation / tagging model / `postprocess` pipeline is abstracted
by `tagger`, mapping the active sub-batch to the per-sentence proposals; the
one internally visible `preprocess` behaviour is kept: when no active
sentence is nonempty, `preprocess` returns a bare `[]` and the tuple
unpacking `batch_input_dict, truncated_seq_lengths = self.preprocess(...)`
raises `ValueError` (the subsequent `if not batch_input_dict: break` intended
for this case is unreachable, since the external collation returns a
nonempty dict for a nonempty input). -/
def handleBatchGo (tagger : List Sent → List Sent) :
    Nat → List Sent → List Nat → (Nat → List Sent) → Nat → Except String (List Sent × Nat)
  | 0, fb, _, _, total => Except.ok (fb, total)
  | Nat.succ n, fb, predIds, prev, total =>
    let ori := predIds.map (fun i => fb.getD i [])
    if ori.all (fun t => t.isEmpty) = true then
      Except.error "ValueError: not enough values to unpack (expected 2, got 0)"
    else
      let upd := update_final_batch fb predIds (tagger ori) prev
      if upd.2.1 = [] then Except.ok (upd.1, total + upd.2.2.1)
      else handleBatchGo tagger n upd.1 upd.2.1 upd.2.2.2 (total + upd.2.2.1)

/-- Embedding of `Predictor.handle_batch` (predictor.py lines 132-161):
initialise the shallow copy, the history dictionary and the active id list
(all indices of sentences with at least `min_seq_len` words), then loop up
to `iteration_count` times. -/
def handle_batch (tagger : List Sent → List Sent) (minSeqLen iterationCount : Nat)
    (full_batch : List Sent) : Except String (List Sent × Nat) :=
  let predIds := (List.range full_batch.length).filter
    (fun idx => decide (minSeqLen ≤ (full_batch.getD idx []).length))
  handleBatchGo tagger iterationCount full_batch predIds
    (fun idx => [full_batch.getD idx []]) 0

/-- A tagger behaviour realizable by `postprocess` (confident `$DELETE`
labels on both words of `["b", "c"]` empty that sentence) used for the C8
failing input. -/
def c8Tagger (b : List Sent) : List Sent :=
  b.map (fun s => if s = ["b", "c"] then [] else s)

/-- A deterministic per-sentence tagger with a two-cycle on `["a"]` / `["b"]`
and a chain `["c"] → ["d"] → ["e"] → ["e"]`, used for the C9 counterexample. -/
def oscOracle (s : Sent) : Sent :=
  if s = ["a"] then ["b"]
  else if s = ["b"] then ["a"]
  else if s = ["c"] then ["d"]
  else if s = ["d"] then ["e"]
  else s

/-- The history state reached for the batch `[["a"], ["c"]]` when the run
below enters its final iteration. -/
def oscPrev : Nat → List Sent :=
  fun j => if j = 0 then [["a"], ["b"]] else if j = 1 then [["c"], ["d"], ["e"]] else []

/-- Appending characters on the right preserves a character-list prefix. -/
lemma listLeading_append (l ys : List Char) : listLeading l (l ++ ys) = true := by
  induction l with
  | nil => rfl
  | cons c cs ih => simp [listLeading, ih]

/-- String append acts as list append on the underlying character data. -/
lemma data_append (a b : String) : (a ++ b).data = a.data ++ b.data := rfl

/-- A string always starts with its own prefix part. -/
lemma strHasPref_append (p x : String) : strHasPref p (p ++ x) = true := by
  unfold strHasPref
  rw [data_append]
  exact listLeading_append p.data x.data

/-- If `s` does not start with `p`, then no extension of `p` equals `s`. -/
lemma ne_of_pref_false {p s : String} (h : strHasPref p s = false) (x : String) :
    p ++ x ≠ s := by
  intro he
  have h2 := strHasPref_append p x
  rw [he, h] at h2
  exact Bool.noConfusion h2

/-- `replacementFor` on a `$REPLACE_`-family label keeps the payload after the
first underscore. -/
lemma replacementFor_replace (x : String) :
    replacementFor ("$REPLACE_" ++ x) = Except.ok x := by
  unfold replacementFor
  rw [if_neg (ne_of_pref_false (by decide) x)]
  have h1 : strHasPref "$TRANSFORM_" ("$REPLACE_" ++ x) = false := rfl
  have h2 : strHasPref "$MERGE_" ("$REPLACE_" ++ x) = false := rfl
  rw [if_neg (by simp [h1, h2])]
  rw [show afterFirstUnderscoreList ("$REPLACE_" ++ x).data = some x.data from rfl]

/-- `replacementFor` on a `$APPEND_`-family label keeps the payload after the
first underscore. -/
lemma replacementFor_append_family (x : String) :
    replacementFor ("$APPEND_" ++ x) = Except.ok x := by
  unfold replacementFor
  rw [if_neg (ne_of_pref_false (by decide) x)]
  have h1 : strHasPref "$TRANSFORM_" ("$APPEND_" ++ x) = false := rfl
  have h2 : strHasPref "$MERGE_" ("$APPEND_" ++ x) = false := rfl
  rw [if_neg (by simp [h1, h2])]
  rw [show afterFirstUnderscoreList ("$APPEND_" ++ x).data = some x.data from rfl]

/-- `replacementFor` on a `$TRANSFORM_`-family label keeps the whole label. -/
lemma replacementFor_transform (x : String) :
    replacementFor ("$TRANSFORM_" ++ x) = Except.ok ("$TRANSFORM_" ++ x) := by
  unfold replacementFor
  rw [if_neg (ne_of_pref_false (by decide) x)]
  rw [if_pos (Or.inl (strHasPref_append "$TRANSFORM_" x))]

/-- `replacementFor` on a `$MERGE_`-family label keeps the whole label. -/
lemma replacementFor_merge (x : String) :
    replacementFor ("$MERGE_" ++ x) = Except.ok ("$MERGE_" ++ x) := by
  unfold replacementFor
  rw [if_neg (ne_of_pref_false (by decide) x)]
  rw [if_pos (Or.inr (strHasPref_append "$MERGE_" x))]

/-- `spanFor` on a `$REPLACE_`-family label covers the token at `idx`. -/
lemma spanFor_replace (idx : Nat) (x : String) :
    spanFor idx ("$REPLACE_" ++ x) = some ((idx : Int), (idx : Int) + 1) := by
  unfold spanFor
  rw [if_pos (Or.inl (strHasPref_append "$REPLACE_" x))]

/-- `spanFor` on a `$TRANSFORM_`-family label covers the token at `idx`. -/
lemma spanFor_transform (idx : Nat) (x : String) :
    spanFor idx ("$TRANSFORM_" ++ x) = some ((idx : Int), (idx : Int) + 1) := by
  unfold spanFor
  rw [if_pos (Or.inr (Or.inl (strHasPref_append "$TRANSFORM_" x)))]

/-- `spanFor` on a `$APPEND_`-family label is the zero-width span after `idx`. -/
lemma spanFor_append_family (idx : Nat) (x : String) :
    spanFor idx ("$APPEND_" ++ x) = some ((idx : Int) + 1, (idx : Int) + 1) := by
  unfold spanFor
  have h1 : strHasPref "$REPLACE_" ("$APPEND_" ++ x) = false := rfl
  have h2 : strHasPref "$TRANSFORM_" ("$APPEND_" ++ x) = false := rfl
  rw [if_neg (by simp [h1, h2, ne_of_pref_false (show strHasPref "$APPEND_" "$DELETE" = false by decide) x])]
  rw [if_pos (Or.inl (strHasPref_append "$APPEND_" x))]

/-- `spanFor` on a `$MERGE_`-family label is the zero-width span after `idx`. -/
lemma spanFor_merge (idx : Nat) (x : String) :
    spanFor idx ("$MERGE_" ++ x) = some ((idx : Int) + 1, (idx : Int) + 1) := by
  unfold spanFor
  have h1 : strHasPref "$REPLACE_" ("$MERGE_" ++ x) = false := rfl
  have h2 : strHasPref "$TRANSFORM_" ("$MERGE_" ++ x) = false := rfl
  rw [if_neg (by simp [h1, h2, ne_of_pref_false (show strHasPref "$MERGE_" "$DELETE" = false by decide) x])]
  rw [if_pos (Or.inr (strHasPref_append "$MERGE_" x))]

/-- Folding max over a list in which every element equals `k` yields `k`. -/
lemma foldl_max_all_eq (k : Nat) : ∀ (xs : List Nat) (x : Nat), x = k →
    (∀ i ∈ xs, i = k) → xs.foldl Nat.max x = k := by
  intro xs
  induction xs with
  | nil => intro x hx _; exact hx
  | cons y ys ih =>
    intro x hx hall
    have hy : y = k := hall y (List.mem_cons_self y ys)
    exact ih (Nat.max x y) (by rw [hx, hy]; exact Nat.max_self k)
      (fun i hi => hall i (List.mem_cons_of_mem _ hi))

/-- Python's `max` over a nonempty all-`k` list is `k`. -/
lemma pyMax_all_eq (k : Nat) (l : List Nat) (hne : l ≠ []) (h : ∀ i ∈ l, i = k) :
    pyMax l = Except.ok k := by
  cases l with
  | nil => exact absurd rfl hne
  | cons x xs =>
    show Except.ok (xs.foldl Nat.max x) = Except.ok k
    rw [foldl_max_all_eq k xs x (h x (List.mem_cons_self x xs))
      (fun i hi => h i (List.mem_cons_of_mem _ hi))]

/-- `getD` at an in-range index is the indexed element. -/
lemma getD_lt {α : Type} (l : List α) (i : Nat) (d : α) (h : i < l.length) :
    l.getD i d = l.get ⟨i, h⟩ := by
  induction l generalizing i with
  | nil => simp at h
  | cons a as ih =>
    cases i with
    | zero => rfl
    | succ j => exact ih j (Nat.lt_of_succ_lt_succ h)

/-- Mapping a function that fixes every element of a list is the identity. -/
lemma list_map_self {α : Type} (l : List α) (f : α → α) (h : ∀ x ∈ l, f x = x) :
    l.map f = l := by
  induction l with
  | nil => rfl
  | cons a as ih =>
    rw [List.map_cons, h a (List.mem_cons_self a as),
      ih (fun x hx => h x (List.mem_cons_of_mem _ hx))]

/-- Zipping a list with its own image lists the graph pairs. -/
lemma list_zip_map_self {α β : Type} (l : List α) (g : α → β) :
    l.zip (l.map g) = l.map (fun a => (a, g a)) := by
  induction l with
  | nil => rfl
  | cons a as ih =>
    show (a, g a) :: as.zip (as.map g) = (a, g a) :: as.map (fun a => (a, g a))
    rw [ih]

/-- Folding `ufbStep` over pairs whose proposal equals the state's current
sequence leaves the state unchanged. -/
lemma foldl_ufbStep_id (s : UFBState) : ∀ (ps : List (Nat × Sent)),
    (∀ p ∈ ps, p.2 = s.finalBatch.getD p.1 []) → ps.foldl ufbStep s = s := by
  intro ps
  induction ps with
  | nil => intro _; rfl
  | cons q qs ih =>
    intro h
    have hq : ufbStep s q = s := by
      unfold ufbStep
      rw [if_neg (fun hc => hc (h q (List.mem_cons_self q qs)).symm)]
    rw [List.foldl_cons, hq, ih (fun p hp => h p (List.mem_cons_of_mem _ hp))]

/-- `update_final_batch` on proposals that all equal the current sequences
returns everything unchanged with no update and no active id. -/
lemma update_final_batch_fixed (fb : List Sent) (ids : List Nat) (prev : Nat → List Sent) :
    update_final_batch fb ids (ids.map (fun i => fb.getD i [])) prev = (fb, [], 0, prev) := by
  unfold update_final_batch
  rw [list_zip_map_self]
  rw [foldl_ufbStep_id _ _ (by
    intro p hp
    obtain ⟨i, _, rfl⟩ := List.mem_map.mp hp
    rfl)]

/-- **C7**: for every token, index and label whatsoever, if the label's
probability is strictly below `min_error_probability` then `get_label_action`
returns no edit (`Except.ok none`), regardless of the label. -/
theorem C7_threshold (minErr : ℚ) (token : String) (idx : Nat) (p : ℚ) (label : String)
    (h : p < minErr) :
    get_label_action minErr token idx p label = Except.ok none := by
  unfold get_label_action
  rw [if_pos h]

/-- Witness for `C7_threshold`: the spec's own example,
`decode("foo", 3, 0.4, "$DELETE")` with `min_error_probability = 0.5`. -/
theorem C7_threshold_witness :
    get_label_action (mkRat 1 2) "foo" 3 (mkRat 2 5) "$DELETE" = Except.ok none :=
  C7_threshold (mkRat 1 2) "foo" 3 (mkRat 2 5) "$DELETE" (by decide)

/-- **C6**: for probability at or above the threshold, `$REPLACE_*`,
`$TRANSFORM_*` and `$DELETE` yield the single-token span `(idx-1, idx)` after
marker compensation, `$APPEND_*` and `$MERGE_*` the zero-width span
`(idx, idx)`; the replacement is `""` for `$DELETE`, the full label for
`$TRANSFORM_*` / `$MERGE_*`, and the payload after the first underscore for
the other two families. -/
theorem C6_label_families (minErr : ℚ) (token : String) (idx : Nat) (p : ℚ) (x : String)
    (hp : minErr ≤ p) :
    get_label_action minErr token idx p ("$REPLACE_" ++ x) =
      Except.ok (some ((idx : Int) - 1, (idx : Int), x, p)) ∧
    get_label_action minErr token idx p ("$TRANSFORM_" ++ x) =
      Except.ok (some ((idx : Int) - 1, (idx : Int), "$TRANSFORM_" ++ x, p)) ∧
    get_label_action minErr token idx p "$DELETE" =
      Except.ok (some ((idx : Int) - 1, (idx : Int), "", p)) ∧
    get_label_action minErr token idx p ("$APPEND_" ++ x) =
      Except.ok (some ((idx : Int), (idx : Int), x, p)) ∧
    get_label_action minErr token idx p ("$MERGE_" ++ x) =
      Except.ok (some ((idx : Int), (idx : Int), "$MERGE_" ++ x, p)) := by
  have hnl : ¬ p < minErr := not_lt.mpr hp
  refine ⟨?_, ?_, ?_, ?_, ?_⟩
  · unfold get_label_action
    rw [if_neg hnl]
    rw [if_neg (by
      simp [ne_of_pref_false (show strHasPref "$REPLACE_" UNK_LABEL = false by decide) x,
        ne_of_pref_false (show strHasPref "$REPLACE_" PAD_LABEL = false by decide) x,
        ne_of_pref_false (show strHasPref "$REPLACE_" KEEP_LABEL = false by decide) x])]
    rw [replacementFor_replace, spanFor_replace]
    simp
  · unfold get_label_action
    rw [if_neg hnl]
    rw [if_neg (by
      simp [ne_of_pref_false (show strHasPref "$TRANSFORM_" UNK_LABEL = false by decide) x,
        ne_of_pref_false (show strHasPref "$TRANSFORM_" PAD_LABEL = false by decide) x,
        ne_of_pref_false (show strHasPref "$TRANSFORM_" KEEP_LABEL = false by decide) x])]
    rw [replacementFor_transform, spanFor_transform]
    simp
  · unfold get_label_action
    rw [if_neg hnl]
    rw [if_neg (by decide)]
    rw [show replacementFor "$DELETE" = Except.ok "" from rfl,
      show spanFor idx "$DELETE" = some ((idx : Int), (idx : Int) + 1) from by
        unfold spanFor; rw [if_pos (Or.inr (Or.inr rfl))]]
    simp
  · unfold get_label_action
    rw [if_neg hnl]
    rw [if_neg (by
      simp [ne_of_pref_false (show strHasPref "$APPEND_" UNK_LABEL = false by decide) x,
        ne_of_pref_false (show strHasPref "$APPEND_" PAD_LABEL = false by decide) x,
        ne_of_pref_false (show strHasPref "$APPEND_" KEEP_LABEL = false by decide) x])]
    rw [replacementFor_append_family, spanFor_append_family]
    simp
  · unfold get_label_action
    rw [if_neg hnl]
    rw [if_neg (by
      simp [ne_of_pref_false (show strHasPref "$MERGE_" UNK_LABEL = false by decide) x,
        ne_of_pref_false (show strHasPref "$MERGE_" PAD_LABEL = false by decide) x,
        ne_of_pref_false (show strHasPref "$MERGE_" KEEP_LABEL = false by decide) x])]
    rw [replacementFor_merge, spanFor_merge]
    simp

/-- Witness for `C6_label_families`: the spec's example
`decode("foo", 2, 0.9, "$APPEND_the") = (2, 2, "the", 0.9)`, together with
the other four families at the same input. -/
theorem C6_label_families_witness :
    get_label_action (mkRat 1 2) "foo" 2 (mkRat 9 10) ("$APPEND_" ++ "the") =
      Except.ok (some (((2 : Nat) : Int), ((2 : Nat) : Int), "the", mkRat 9 10)) ∧
    get_label_action (mkRat 1 2) "foo" 2 (mkRat 9 10) ("$REPLACE_" ++ "the") =
      Except.ok (some (((2 : Nat) : Int) - 1, ((2 : Nat) : Int), "the", mkRat 9 10)) :=
  ⟨(C6_label_families (mkRat 1 2) "foo" 2 (mkRat 9 10) "the" (by decide)).2.2.2.1,
   (C6_label_families (mkRat 1 2) "foo" 2 (mkRat 9 10) "the" (by decide)).1⟩

/-- **C5** (counterexample): at token position 0 (the synthetic start
marker), a high-confidence `$DELETE` makes the decoder emit the edit
`(-1, 0, "", 0.9)`, whose `start` is negative — contradicting the claimed
invariant `0 <= start` for every position including position 0. -/
theorem C5_counterexample :
    get_label_action (mkRat 1 2) START_TOKEN 0 (mkRat 9 10) "$DELETE" =
      Except.ok (some (-1, 0, "", mkRat 9 10)) ∧ ¬ ((0 : Int) ≤ -1) :=
  ⟨rfl, by decide⟩

/-- **C5** (amended): every edit the decoder emits satisfies
`start <= end` and `idx - 1 <= start`; for token positions `idx >= 1`
(all real word positions) additionally `0 <= start`.  At position 0 the
replace/transform/delete families produce `start = -1`. -/
theorem C5_amended (minErr : ℚ) (token : String) (idx : Nat) (p : ℚ) (label : String)
    (ed : Edit) (h : get_label_action minErr token idx p label = Except.ok (some ed)) :
    ed.1 ≤ ed.2.1 ∧ (idx : Int) - 1 ≤ ed.1 ∧ (1 ≤ idx → 0 ≤ ed.1) := by
  unfold get_label_action at h
  split at h
  · simp at h
  · split at h
    · simp at h
    · split at h
      · simp at h
      · rename_i processed se heq hspan
        simp only [Except.ok.injEq, Option.some.injEq] at h
        subst h
        unfold spanFor at hspan
        split at hspan
        · simp only [Option.some.injEq] at hspan
          subst hspan
          dsimp only
          refine ⟨by omega, by omega, by omega⟩
        · split at hspan
          · simp only [Option.some.injEq] at hspan
            subst hspan
            dsimp only
            refine ⟨by omega, by omega, by omega⟩
          · exact absurd hspan (by simp)
      · simp at h

/-- Witness for `C5_amended`: the emitted edit for
`decode("foo", 2, 0.9, "$APPEND_the")` satisfies the amended bounds. -/
theorem C5_amended_witness :
    (2 : Int) ≤ 2 ∧ ((2 : Nat) : Int) - 1 ≤ 2 ∧ (1 ≤ (2 : Nat) → (0 : Int) ≤ 2) :=
  C5_amended (mkRat 1 2) "foo" 2 (mkRat 9 10) "$APPEND_the" (2, 2, "the", mkRat 9 10) rfl

/-- **C1** (code behaviour at the failing input): for a confident label of an
unrecognized family the decoder does not drop the candidate — it raises.
With an underscore in the label (`"$SWAP_x"`) the span `if/elif/else` chain
assigns nothing and building the action raises `UnboundLocalError`; without
an underscore (`"REPLACE"`) the payload slice raises `ValueError` first. -/
theorem C1_unrecognized_family_raises :
    get_label_action (mkRat 1 2) "foo" 1 (mkRat 9 10) "$SWAP_x" =
      Except.error "UnboundLocalError: local variable start_pos referenced before assignment" ∧
    get_label_action (mkRat 1 2) "foo" 1 (mkRat 9 10) "REPLACE" =
      Except.error "ValueError: substring not found" :=
  ⟨rfl, rfl⟩

/-- **C3**: with `debug_force_edit` off, (a) if the arg-max correction label
is `KEEP` at every position the proposal is the unchanged sequence; (b) if
the aggregate incorrectness probability is strictly below
`min_error_probability` the proposal is the unchanged sequence; (c) when
neither of the code's guards fires, the result is exactly the edit scan
followed by edit application — edits are scanned only in that case. -/
theorem C3_pre_decode_guards (minErr : ℚ) (keepId : Nat) (id2tag : Nat → String)
    (tokens : List String) (truncLen : Nat) (labelProbs : List ℚ) (labelIds : List Nat)
    (incorProb : ℚ) (hne : labelIds ≠ []) :
    ((∀ i ∈ labelIds, i = keepId) →
      postprocessSent minErr keepId id2tag false tokens truncLen labelProbs labelIds incorProb =
        Except.ok tokens) ∧
    (incorProb < minErr →
      postprocessSent minErr keepId id2tag false tokens truncLen labelProbs labelIds incorProb =
        Except.ok tokens) ∧
    (∀ mx, pyMax labelIds = Except.ok mx → mx ≠ keepId → ¬ incorProb < minErr →
      postprocessSent minErr keepId id2tag false tokens truncLen labelProbs labelIds incorProb =
        match scanEdits minErr keepId id2tag tokens truncLen labelProbs labelIds [] with
        | Except.error msg => Except.error msg
        | Except.ok edits =>
            Except.ok (if edits = [] then tokens else applyEdits tokens edits)) := by
  refine ⟨?_, ?_, ?_⟩
  · intro hall
    unfold postprocessSent
    rw [pyMax_all_eq keepId labelIds hne hall]
    dsimp only
    rw [if_pos (show keepId = keepId ∧ false = false from ⟨rfl, rfl⟩)]
  · intro hlt
    obtain ⟨x, xs, rfl⟩ : ∃ x xs, labelIds = x :: xs := by
      cases labelIds with
      | nil => exact absurd rfl hne
      | cons x xs => exact ⟨x, xs, rfl⟩
    unfold postprocessSent pyMax
    dsimp only
    by_cases hg : List.foldl Nat.max x xs = keepId ∧ false = false
    · rw [if_pos hg]
    · rw [if_neg hg, if_pos hlt]
  · intro mx hmx hk hnl
    unfold postprocessSent
    rw [hmx]
    dsimp only
    rw [if_neg (fun hc => hk hc.1), if_neg hnl,
      if_neg (fun hc => Bool.false_ne_true hc.1)]

/-- Witness for `C3_pre_decode_guards`: a concrete sentence whose labels are
all `$KEEP` (id 1) keeps its token sequence unchanged. -/
theorem C3_pre_decode_guards_witness :
    postprocessSent (mkRat 1 2) 1 (fun _ => "$KEEP") false ["a", "b"] 3
      [mkRat 1 1, mkRat 1 1, mkRat 1 1] [1, 1, 1] (mkRat 9 10) = Except.ok ["a", "b"] :=
  (C3_pre_decode_guards (mkRat 1 2) 1 (fun _ => "$KEEP") ["a", "b"] 3
    [mkRat 1 1, mkRat 1 1, mkRat 1 1] [1, 1, 1] (mkRat 9 10) (by decide)).1 (by decide)

/-- **C4**: in each `update_final_batch` step (its loop body `ufbStep`, for
any in-range sentence id): an unchanged proposal leaves the whole state
unchanged (converged: not re-activated, count not incremented); a changed
proposal already in the history replaces the current sequence but does not
re-activate the id (cycle break); a changed new proposal replaces the
current sequence, is appended to the history, keeps the id active and
increments the update count by one. -/
theorem C4_update_final_batch_cases (s : UFBState) (ori_id : Nat) (pred : Sent)
    (h : ori_id < s.finalBatch.length) :
    (pred = s.finalBatch.getD ori_id [] → ufbStep s (ori_id, pred) = s) ∧
    (pred ≠ s.finalBatch.getD ori_id [] → pred ∈ s.prev ori_id →
      ufbStep s (ori_id, pred) =
        { finalBatch := s.finalBatch.set ori_id pred,
          newPredIds := s.newPredIds,
          totalUpdated := s.totalUpdated + 1,
          prev := s.prev }) ∧
    (pred ≠ s.finalBatch.getD ori_id [] → pred ∉ s.prev ori_id →
      (ufbStep s (ori_id, pred)).finalBatch = s.finalBatch.set ori_id pred ∧
      (ufbStep s (ori_id, pred)).newPredIds = s.newPredIds ++ [ori_id] ∧
      (ufbStep s (ori_id, pred)).totalUpdated = s.totalUpdated + 1 ∧
      (ufbStep s (ori_id, pred)).prev ori_id = s.prev ori_id ++ [pred]) := by
  refine ⟨?_, ?_, ?_⟩
  · intro heq
    unfold ufbStep
    rw [if_neg (fun hc => hc heq.symm)]
  · intro hne hmem
    unfold ufbStep
    rw [if_pos (Ne.symm hne), if_neg (not_not_intro hmem)]
  · intro hne hnomem
    unfold ufbStep
    rw [if_pos (Ne.symm hne), if_pos hnomem]
    exact ⟨rfl, rfl, rfl, by simp⟩

/-- Witness for `C4_update_final_batch_cases`: a one-sentence state where a
new differing proposal is accepted, kept active, counted and recorded. -/
theorem C4_update_final_batch_cases_witness :
    (ufbStep ⟨[["a"]], [], 0, fun _ => [["a"]]⟩ (0, ["b"])).finalBatch = [["b"]] ∧
    (ufbStep ⟨[["a"]], [], 0, fun _ => [["a"]]⟩ (0, ["b"])).newPredIds = [0] ∧
    (ufbStep ⟨[["a"]], [], 0, fun _ => [["a"]]⟩ (0, ["b"])).totalUpdated = 1 ∧
    (ufbStep ⟨[["a"]], [], 0, fun _ => [["a"]]⟩ (0, ["b"])).prev 0 = [["a"], ["b"]] :=
  (C4_update_final_batch_cases ⟨[["a"]], [], 0, fun _ => [["a"]]⟩ 0 ["b"]
    (by decide)).2.2 (by decide) (by decide)

/-- **C2** (code behaviour at the failing input): on an empty batch, and on
a batch in which every sentence is shorter than `min_seq_len`, the first
iteration does not terminate normally — `preprocess` returns a bare `[]`
and the tuple unpacking in `handle_batch` raises `ValueError` instead of
returning the batch unchanged with zero updates. -/
theorem C2_empty_or_short_batch_raises :
    handle_batch (fun b => b) 1 1 ([] : List Sent) =
      Except.error "ValueError: not enough values to unpack (expected 2, got 0)" ∧
    handle_batch (fun b => b) 2 1 [["a"]] =
      Except.error "ValueError: not enough values to unpack (expected 2, got 0)" :=
  ⟨rfl, rfl⟩

/-- **C8** (code behaviour at the failing input): with batch
`[["a"], ["b", "c"]]`, `min_seq_len = 2` and `iteration_count = 2`, a tagger
output that deletes every word of the only active sentence makes the next
iteration's `preprocess` raise `ValueError`, so the short sentence `["a"]`
does not appear in any output at all — `handle_batch` raises instead of
returning it unchanged. -/
theorem C8_short_skip_crash :
    handle_batch c8Tagger 2 2 [["a"], ["b", "c"]] =
      Except.error "ValueError: not enough values to unpack (expected 2, got 0)" :=
  rfl

/-- **C9** (amended): when every deactivation of the original run was by
convergence — equivalently, for a deterministic per-sentence tagger, every
sentence of the output batch with at least `min_seq_len` words is a fixed
point of the tagger — and at least one such sentence is nonempty, re-running
`handle_batch` with `iteration_count = 1` returns the batch unchanged with a
total update count of zero. -/
theorem C9_amended (oracle : Sent → Sent) (minSeqLen : Nat) (batch : List Sent)
    (hfix : ∀ s ∈ batch, minSeqLen ≤ s.length → oracle s = s)
    (hsome : ∃ s, s ∈ batch ∧ minSeqLen ≤ s.length ∧ s ≠ []) :
    handle_batch (fun b => b.map oracle) minSeqLen 1 batch = Except.ok (batch, 0) := by
  obtain ⟨s, hs, hslen, hsne⟩ := hsome
  unfold handle_batch handleBatchGo
  dsimp only
  have hmem_pred : ∀ i ∈ (List.range batch.length).filter
      (fun idx => decide (minSeqLen ≤ (batch.getD idx []).length)),
      i < batch.length ∧ minSeqLen ≤ (batch.getD i []).length := by
    intro i hi
    obtain ⟨h1, h2⟩ := List.mem_filter.mp hi
    exact ⟨List.mem_range.mp h1, of_decide_eq_true h2⟩
  have hallfalse : (((List.range batch.length).filter
      (fun idx => decide (minSeqLen ≤ (batch.getD idx []).length))).map
        (fun i => batch.getD i [])).all (fun t => t.isEmpty) = false := by
    obtain ⟨⟨i, hilt⟩, hgi⟩ := List.get_of_mem hs
    have hipred : i ∈ (List.range batch.length).filter
        (fun idx => decide (minSeqLen ≤ (batch.getD idx []).length)) := by
      refine List.mem_filter.mpr ⟨List.mem_range.mpr hilt, ?_⟩
      rw [getD_lt batch i [] hilt, hgi]
      exact decide_eq_true hslen
    have hsmem : s ∈ ((List.range batch.length).filter
        (fun idx => decide (minSeqLen ≤ (batch.getD idx []).length))).map
          (fun i => batch.getD i []) := by
      have := List.mem_map_of_mem (fun i => batch.getD i []) hipred
      dsimp only at this
      rwa [getD_lt batch i [] hilt, hgi] at this
    cases hv : (((List.range batch.length).filter
        (fun idx => decide (minSeqLen ≤ (batch.getD idx []).length))).map
          (fun i => batch.getD i [])).all (fun t => t.isEmpty) with
    | false => rfl
    | true =>
      have hse := List.all_eq_true.mp hv s hsmem
      exact absurd (List.isEmpty_iff.mp hse) hsne
  rw [hallfalse]
  rw [if_neg Bool.false_ne_true]
  have hmapself : (((List.range batch.length).filter
      (fun idx => decide (minSeqLen ≤ (batch.getD idx []).length))).map
        (fun i => batch.getD i [])).map oracle =
      ((List.range batch.length).filter
        (fun idx => decide (minSeqLen ≤ (batch.getD idx []).length))).map
          (fun i => batch.getD i []) := by
    refine list_map_self _ _ ?_
    intro x hx
    obtain ⟨i, hi, rfl⟩ := List.mem_map.mp hx
    obtain ⟨h1, h2⟩ := hmem_pred i hi
    refine hfix _ ?_ h2
    rw [getD_lt batch i [] h1]
    exact List.get_mem batch i h1
  rw [hmapself, update_final_batch_fixed]
  rfl

/-- Witness for `C9_amended`: the identity tagger on a single nonempty
sentence re-runs with no change and zero updates. -/
theorem C9_amended_witness :
    handle_batch (fun b => b.map (fun s => s)) 1 1 [["x"]] = Except.ok ([["x"]], 0) :=
  C9_amended (fun s => s) 1 [["x"]] (fun _ _ _ => rfl)
    ⟨["x"], by decide, by decide, by decide⟩

/-- **C9** (counterexample): sentence 0 oscillates `["a"] → ["b"] → ["a"]`
and is deactivated by cycle break in iteration 1; sentence 1 converges to
`["e"]` and the run reaches `done` in iteration 2 because the proposal of
the only remaining active sentence equals its current sequence (fourth
conjunct).  Yet re-running `handle_batch` on the output `[["a"], ["e"]]`
with `iteration_count = 1` changes it to `[["b"], ["e"]]` with one update,
not the claimed unchanged output with zero updates. -/
theorem C9_counterexample :
    handle_batch (fun b => b.map oscOracle) 1 5 [["a"], ["c"]] =
      Except.ok ([["a"], ["e"]], 4) ∧
    handle_batch (fun b => b.map oscOracle) 1 3 [["a"], ["c"]] =
      Except.ok ([["a"], ["e"]], 4) ∧
    oscOracle ["e"] = ["e"] ∧
    update_final_batch [["a"], ["e"]] [1] [["e"]] oscPrev = ([["a"], ["e"]], [], 0, oscPrev) ∧
    handle_batch (fun b => b.map oscOracle) 1 1 [["a"], ["e"]] =
      Except.ok ([["b"], ["e"]], 1) ∧
    (([["b"], ["e"]] : List Sent), (1 : Nat)) ≠ (([["a"], ["e"]] : List Sent), (0 : Nat)) :=
  ⟨rfl, rfl, rfl, rfl, rfl, by decide⟩
